import Mathlib

/-!
Verification development for the telemetry core of `industrial-api`
(`src/server.ts`): ingestion (`POST /api/telemetry`), the bucketed history
query (`GET /api/telemetry/:stationId`), and the SSE live-channel registry
(`openSSE` / `sseBroadcast`).

Conventions of the shallow embedding:
* JavaScript timestamps are modelled as `Int` milliseconds since the epoch
  (`Date.getTime()`), numeric metric values as `Int`.
* A JavaScript value reaching `pushRow`'s `v` parameter is modelled by `JVal`,
  which records exactly what the code inspects: whether `typeof v === "number"`
  (including the number `NaN`), whether `v == null` (`null` or `undefined`),
  and otherwise the result of the `Number(v)` coercion (`none` meaning `NaN`).
* JavaScript `Map` and plain-object records are modelled as association lists
  with `Map.set` / property-assignment semantics (replace in place, else
  append), matching insertion-order iteration.
* The Prisma store is modelled as the list of persisted telemetry rows in
  insertion order; `createMany` appends, `findMany` filters and sorts by time.
-/

namespace IndustrialApi

/-- A JavaScript value as discriminated by the ingestion path of
`POST /api/telemetry` (`src/server.ts`): `num x` is a non-NaN number, `nanNum`
is the number `NaN` (which still satisfies `typeof v === "number"`), `null`
and `undef` satisfy `v == null`, and `other c` is any remaining value whose
`Number(v)` coercion yields `c` (`none` standing for `NaN`). -/
inductive JVal where
  | num (x : Int)
  | nanNum
  | null
  | undef
  | other (coerced : Option Int)
deriving DecidableEq

/-- `typeof v === "number"` (true also for `NaN`). -/
def JVal.isNumberType : JVal → Bool
  | .num _ => true
  | .nanNum => true
  | _ => false

/-- The value normalization of `pushRow`:
`const num = typeof v === "number" ? v : v == null ? null : Number(v);`
followed by the guard `if (num !== null && Number.isNaN(num)) return;`.
`some (some x)` means the observation is accepted with numeric value `x`,
`some none` means accepted with a null value, `none` means dropped (NaN). -/
def coerceValue : JVal → Option (Option Int)
  | .num x => some (some x)
  | .nanNum => none
  | .null => some none
  | .undef => some none
  | .other c => c.map some

/-- One persisted telemetry row (the Prisma `Telemetry` record built by
`pushRow`): `{ k, v, time, stationId, deviceId }`. -/
structure Row where
  k : String
  v : Option Int
  time : Int
  stationId : String
  deviceId : Option String
deriving DecidableEq

/-- `pushRow` from the `POST /api/telemetry` handler: drops a null/undefined
key, normalizes the value via `coerceValue` (dropping NaN), resolves the
timestamp (`t ? new Date(String(t)) : now`, modelled with `none` standing for
an absent/falsy `t`), and appends the row. -/
def pushRow (stationId : String) (deviceId : Option String) (now : Int)
    (rows : List Row) (k : Option String) (v : JVal) (t : Option Int) :
    List Row :=
  match k with
  | none => rows
  | some key =>
    match coerceValue v with
    | none => rows
    | some num => rows ++ [⟨key, num, t.getD now, stationId, deviceId⟩]

/-- One entry of `body.events`: `e?.k` (`none` when null/undefined/absent),
`e?.v`, `e?.time`. -/
structure EventEntry where
  k : Option String
  v : JVal
  time : Option Int
deriving DecidableEq

/-- The three accepted request-body shapes, in the priority order the handler
tries them: `Array.isArray(body.events)`, then `hasOwnProperty("k") &&
hasOwnProperty("v")`, else the flat `Object.entries(body)` walk. -/
inductive Shape where
  | events (es : List EventEntry)
  | single (k : Option String) (v : JVal)
  | flat (entries : List (String × JVal))
deriving DecidableEq

/-- The request body of `POST /api/telemetry` as far as the handler inspects
it: `body.stationId` (`none` when null/undefined), `body.deviceId`,
`body.time`, and the metric-carrying shape. -/
structure Body where
  stationId : Option String
  deviceId : Option String
  time : Option Int
  shape : Shape
deriving DecidableEq

/-- JavaScript whitespace as far as `String.prototype.trim` strips it
(the practically relevant characters: space, tab, and line terminators). -/
def isJsSpace (c : Char) : Bool :=
  c = ' ' || c = '\t' || c = '\n' || c = '\r' ||
    c = Char.ofNat 11 || c = Char.ofNat 12

/-- `String.prototype.trim()`: strip leading and trailing whitespace. -/
def jsTrim (s : String) : String :=
  ⟨((s.data.dropWhile isJsSpace).reverse.dropWhile isJsSpace).reverse⟩

/-- `String(body.stationId ?? "").trim()`. -/
def normStationId (b : Body) : String :=
  jsTrim (b.stationId.getD "")

/-- `body.deviceId == null ? null : String(body.deviceId ?? "").trim() || null`. -/
def normDeviceId (d : Option String) : Option String :=
  match d with
  | none => none
  | some s => if jsTrim s = "" then none else some (jsTrim s)

/-- The reserved top-level fields skipped by the flat-map shape. -/
def reservedKey (k : String) : Bool :=
  k == "stationId" || k == "deviceId" || k == "time"

/-- The row list built by the handler's shape dispatch: `body.events` entries
each go through `pushRow (e?.k, e?.v, e?.time)`; the single `{k, v}` pair goes
through `pushRow (body.k, body.v, body.time)`; the flat map pushes only
entries with `typeof v === "number"` and a non-reserved key, with `body.time`. -/
def buildRows (b : Body) (stationId : String) (deviceId : Option String)
    (now : Int) : List Row :=
  match b.shape with
  | .events es =>
    es.foldl (fun rows e => pushRow stationId deviceId now rows e.k e.v e.time) []
  | .single k v => pushRow stationId deviceId now [] k v b.time
  | .flat entries =>
    entries.foldl
      (fun rows kv =>
        if reservedKey kv.1 then rows
        else if kv.2.isNumberType then
          pushRow stationId deviceId now rows (some kv.1) kv.2 b.time
        else rows)
      []

/-- Association-list update with JavaScript `Map.set` / object
property-assignment semantics: overwrite in place if the key is present,
otherwise append. -/
def alistSet {α β : Type} [BEq α] : List (α × β) → α → β → List (α × β)
  | [], k, v => [(k, v)]
  | e :: es, k, v => if e.1 == k then (k, v) :: es else e :: alistSet es k v

/-- Association-list lookup (`Map.get` / property read). -/
def alistLookup {α β : Type} [BEq α] : List (α × β) → α → Option β
  | [], _ => none
  | e :: es, k => if e.1 == k then some e.2 else alistLookup es k

/-- Is `k` one of the dashboard-relevant snapshot keys of the ingestion
handler's allow-list? -/
def snapshotKey (k : String) : Bool :=
  k == "status" || k == "speed" || k == "count" || k == "pass" ||
    k == "fail" || k == "suspect" || k == "packedFg"

/-- The snapshot metric record built after the store write: for each row whose
key is in the allow-list and whose value is non-null, `snapshot[r.k] = r.v`. -/
def buildSnapshot (rows : List Row) : List (String × Int) :=
  rows.foldl
    (fun g r =>
      match r.v with
      | some x => if snapshotKey r.k then alistSet g r.k x else g
      | none => g)
    []

/-- The event published over SSE after a successful ingestion: the station tag
and the allow-listed metrics (the `ts` field of the JSON payload is a fresh
wall-clock string and is not modelled). -/
structure Snapshot where
  stationId : String
  metrics : List (String × Int)
deriving DecidableEq

/-- The HTTP outcome of `POST /api/telemetry`: 400 with an error message,
500 when the store write throws, or 201 with the inserted row count. -/
inductive IngestStatus where
  | badRequest (msg : String)
  | serverError
  | created (inserted : Nat)
deriving DecidableEq

/-- The observable effect of one ingestion call: the HTTP status, the store
contents after the call, and the snapshots broadcast during the call. -/
structure IngestOutcome where
  status : IngestStatus
  store : List Row
  broadcasts : List Snapshot
deriving DecidableEq

/-- The `POST /api/telemetry` handler: validate `stationId`, build the row
batch, reject an empty batch, persist via `createMany` (`storeOk = false`
models the write throwing, caught as a 500 with nothing persisted and nothing
broadcast), then build and broadcast the snapshot and answer 201. -/
def postTelemetry (store : List Row) (b : Body) (now : Int) (storeOk : Bool) :
    IngestOutcome :=
  let stationId := normStationId b
  if stationId = "" then ⟨.badRequest "stationId required", store, []⟩
  else
    let rows := buildRows b stationId (normDeviceId b.deviceId) now
    if rows = [] then ⟨.badRequest "no metrics", store, []⟩
    else if !storeOk then ⟨.serverError, store, []⟩
    else ⟨.created rows.length, store ++ rows, [⟨stationId, buildSnapshot rows⟩]⟩

/-! ## Bucketed history query (`GET /api/telemetry/:stationId`) -/

/-- `Math.max(1, Math.min(1440, Number(req.query.minutes ?? 60)))`. -/
def clampMinutes (m : Int) : Int := max 1 (min 1440 m)

/-- `Math.max(1, Math.min(3600, Number(req.query.bucket ?? 60)))`. -/
def clampBucketSec (b : Int) : Int := max 1 (min 3600 b)

/-- The bucket key the query assigns to a sample time:
`Math.floor(time / bucketMs) * bucketMs` (JavaScript `Math.floor` of the real
quotient is floor division, `Int.fdiv`). -/
def bucketKeyOf (bucketMs : Int) (t : Int) : Int :=
  (Int.fdiv t bucketMs) * bucketMs

/-- Insert a row into a time-ascending list, keeping arrival order between
equal times (the stable order a `orderBy time asc` read presents). -/
def insertByTime (r : Row) : List Row → List Row
  | [] => [r]
  | x :: xs => if x.time < r.time then x :: insertByTime r xs else r :: x :: xs

/-- Sort rows by time ascending (the store's `orderBy: { time: "asc" }`). -/
def sortByTime : List Row → List Row
  | [] => []
  | r :: rs => insertByTime r (sortByTime rs)

/-- The `findMany` row predicate: `{ stationId, time: { gte: from } }`. -/
def rangePred (stationId : String) (fromT : Int) (r : Row) : Bool :=
  r.stationId == stationId && decide (fromT ≤ r.time)

/-- The rows the query reads:
`where { stationId, time: { gte: from } }, orderBy time asc`. -/
def queryRows (store : List Row) (stationId : String) (fromT : Int) : List Row :=
  sortByTime (store.filter (rangePred stationId fromT))

/-- One output point: the bucket-start timestamp `ts` and the metric record
accumulated for that bucket. -/
structure Point where
  ts : Int
  metrics : List (String × Int)
deriving DecidableEq

/-- Processing one fetched row into the `groups` map:
`const t = floor(time/bucketMs)*bucketMs; const g = groups.get(t) ?? { ts };
if (r.v !== null) g[r.k] = r.v; groups.set(t, g);`. -/
def addRow (bucketMs : Int) (gs : List (Int × Point)) (r : Row) :
    List (Int × Point) :=
  let t := bucketKeyOf bucketMs r.time
  let g := (alistLookup gs t).getD ⟨t, []⟩
  let g :=
    match r.v with
    | some x => { g with metrics := alistSet g.metrics r.k x }
    | none => g
  alistSet gs t g

/-- The whole `for (const r of rows)` grouping loop. -/
def buildGroups (bucketMs : Int) (rows : List Row) : List (Int × Point) :=
  rows.foldl (addRow bucketMs) []

/-- Insert a keyed group into a key-ascending list
(`.sort((a, b) => a[0] - b[0])`; group keys are distinct). -/
def insertGroup (e : Int × Point) : List (Int × Point) → List (Int × Point)
  | [] => [e]
  | x :: xs => if x.1 < e.1 then x :: insertGroup e xs else e :: x :: xs

/-- Sort the group entries by bucket key ascending. -/
def sortGroups : List (Int × Point) → List (Int × Point)
  | [] => []
  | e :: es => insertGroup e (sortGroups es)

/-- `points = [...groups.entries()].sort((a,b) => a[0]-b[0]).map(([,g]) => g)`. -/
def bucketPoints (rows : List Row) (bucketMs : Int) : List Point :=
  (sortGroups (buildGroups bucketMs rows)).map (·.2)

/-- The JSON body answered by the history query: `stationId`, `from`, `to`
(as epoch milliseconds), the clamped bucket width in seconds, and the points. -/
structure HistoryResp where
  stationId : String
  fromTime : Int
  toTime : Int
  bucket : Int
  points : List Point
deriving DecidableEq

/-- The `GET /api/telemetry/:stationId` handler: trim and validate the station
id, clamp `minutes` and `bucket`, read the rows at or after `now - minutes*60s`
for this station in time order, and fold them into sorted bucket points. -/
def getTelemetry (store : List Row) (stationIdRaw : String)
    (minutesQ bucketQ now : Int) : Except String HistoryResp :=
  let stationId := jsTrim stationIdRaw
  if stationId = "" then .error "stationId required"
  else
    let minutes := clampMinutes minutesQ
    let bucketSec := clampBucketSec bucketQ
    let fromT := now - minutes * 60000
    Except.ok
      ⟨stationId, fromT, now, bucketSec,
        bucketPoints (queryRows store stationId fromT) (bucketSec * 1000)⟩

/-! ## SSE live-channel registry (`openSSE` / `sseBroadcast`) -/

/-- An open SSE response channel: its identity and whether writing to it
raises (the peer vanished — the broken-pipe case the broadcast swallows). -/
structure Channel where
  id : Nat
  broken : Bool
deriving DecidableEq

/-- The `channels : Map<string, Set<Response>>` registry. -/
abbrev ChannelMap := List (String × List Channel)

/-- `openSSE`'s registration step: get-or-create the station's set and add
the response channel to it. -/
def openSSE (chs : ChannelMap) (sid : String) (c : Channel) : ChannelMap :=
  match alistLookup chs sid with
  | none => chs ++ [(sid, [c])]
  | some set => alistSet chs sid (set ++ [c])

/-- The `res.req.on("close", ...)` handler: delete the channel from its
station's set, and when the set becomes empty delete the station's map entry. -/
def closeChannel (chs : ChannelMap) (sid : String) (c : Channel) : ChannelMap :=
  match alistLookup chs sid with
  | none => chs
  | some set =>
    let set2 := set.filter fun x => x ≠ c
    if set2 = [] then chs.filter fun e => !(e.1 == sid)
    else alistSet chs sid set2

/-- `sseBroadcast`: look up the station's subscriber set (no entry means a
no-op) and write the event to each channel, swallowing per-channel write
failures with the `try/catch`. The result is the list of channel ids whose
write succeeded — the subscribers that actually receive the event; the
function is total, so no failure reaches the caller. -/
def sseBroadcast (chs : ChannelMap) (sid : String) : List Nat :=
  match alistLookup chs sid with
  | none => []
  | some set => (set.filter fun c => !c.broken).map (·.id)

/-! ## Derived notions used by the statements -/

/-- Restriction of a sample to a given bucket and key: the per-point predicate
the grouping loop resolves last-write-wins over. -/
def bucketPred (bucketMs B : Int) (k : String) (r : Row) : Bool :=
  (bucketKeyOf bucketMs r.time == B) && (r.k == k)

/-- The value the grouping state reports for bucket `B` and key `k`. -/
def metricValue (gs : List (Int × Point)) (B : Int) (k : String) : Option Int :=
  match alistLookup gs B with
  | none => none
  | some p => alistLookup p.metrics k

/-- Fold the last-seen non-null value over rows, starting from `acc`
(the read-time last-write-wins resolution). -/
def lastSeen (acc : Option Int) (rows : List Row) : Option Int :=
  rows.foldl
    (fun a r =>
      match r.v with
      | some x => some x
      | none => a)
    acc

/-! ## Association-list lemmas -/

theorem alistLookup_alistSet_self {α β : Type} [BEq α] [LawfulBEq α]
    (l : List (α × β)) (k : α) (v : β) :
    alistLookup (alistSet l k v) k = some v := by
  induction l with
  | nil => simp [alistSet, alistLookup]
  | cons e es ih =>
    by_cases h : e.1 == k
    · simp [alistSet, alistLookup, h]
    · simp [alistSet, alistLookup, h, ih]

theorem alistLookup_alistSet_ne {α β : Type} [BEq α] [LawfulBEq α]
    (l : List (α × β)) (k : α) (v : β) (k2 : α) (h : k2 ≠ k) :
    alistLookup (alistSet l k v) k2 = alistLookup l k2 := by
  induction l with
  | nil =>
    have : ¬(k == k2) := by simpa using fun he => h he.symm
    simp [alistSet, alistLookup, this]
  | cons e es ih =>
    by_cases he : e.1 == k
    · have hk : e.1 = k := by simpa using he
      have : ¬(k == k2) := by simpa using fun hKK => h hKK.symm
      have : ¬(e.1 == k2) := by
        simpa [hk] using fun hKK => h hKK.symm
      simp [alistSet, alistLookup, he, hk, *]
    · by_cases he2 : e.1 == k2
      · simp [alistSet, alistLookup, he, he2]
      · simp [alistSet, alistLookup, he, he2, ih]

theorem alistLookup_mem {α β : Type} [BEq α] [LawfulBEq α]
    (l : List (α × β)) (k : α) (v : β) (h : alistLookup l k = some v) :
    (k, v) ∈ l := by
  induction l with
  | nil => simp [alistLookup] at h
  | cons e es ih =>
    by_cases he : e.1 == k
    · have hk : e.1 = k := by simpa using he
      simp [alistLookup, he] at h
      have hev : e = (k, v) := by
        cases e
        simp_all
      rw [← hev]
      exact List.mem_cons_self _ _
    · simp [alistLookup, he] at h
      exact List.mem_cons_of_mem _ (ih h)

theorem mem_alistSet {α β : Type} [BEq α] [LawfulBEq α]
    (l : List (α × β)) (k : α) (v : β) (x : α × β) (h : x ∈ alistSet l k v) :
    x = (k, v) ∨ x ∈ l := by
  induction l with
  | nil => simpa [alistSet] using h
  | cons e es ih =>
    by_cases he : e.1 == k
    · simp [alistSet, he] at h
      rcases h with h | h
      · exact Or.inl h
      · exact Or.inr (List.mem_cons_of_mem _ h)
    · simp [alistSet, he] at h
      rcases h with h | h
      · exact Or.inr (by simp [h])
      · rcases ih h with h2 | h2
        · exact Or.inl h2
        · exact Or.inr (List.mem_cons_of_mem _ h2)

theorem mem_keys_alistSet {α β : Type} [BEq α] [LawfulBEq α]
    (l : List (α × β)) (k : α) (v : β) (x : α)
    (h : x ∈ (alistSet l k v).map (·.1)) :
    x ∈ l.map (·.1) ∨ x = k := by
  rcases List.mem_map.mp h with ⟨e, he, hx⟩
  rcases mem_alistSet l k v e he with h2 | h2
  · right
    rw [h2] at hx
    exact hx.symm
  · left
    exact List.mem_map.mpr ⟨e, h2, hx⟩

theorem nodup_keys_alistSet {α β : Type} [BEq α] [LawfulBEq α]
    (l : List (α × β)) (k : α) (v : β) (h : (l.map (·.1)).Nodup) :
    ((alistSet l k v).map (·.1)).Nodup := by
  induction l with
  | nil => simp [alistSet]
  | cons e es ih =>
    rw [List.map_cons, List.nodup_cons] at h
    by_cases he : e.1 == k
    · have hk : e.1 = k := by simpa using he
      simpa [alistSet, he, List.nodup_cons, ← hk] using h
    · have hne : e.1 ≠ k := by simpa using he
      rw [alistSet]
      simp only [he, if_false, List.map_cons]
      have hnotin : e.1 ∉ (alistSet es k v).map (·.1) := by
        intro hmem
        rcases mem_keys_alistSet es k v e.1 hmem with h2 | h2
        · exact h.1 h2
        · exact hne h2
      exact List.nodup_cons.mpr ⟨hnotin, ih h.2⟩

theorem alistLookup_of_mem_nodup {α β : Type} [BEq α] [LawfulBEq α]
    (l : List (α × β)) (k : α) (v : β)
    (hnd : (l.map (·.1)).Nodup) (h : (k, v) ∈ l) :
    alistLookup l k = some v := by
  induction l with
  | nil => simp at h
  | cons e es ih =>
    have hnd2 : (es.map (·.1)).Nodup := by
      rw [List.map_cons, List.nodup_cons] at hnd
      exact hnd.2
    have hhead : e.1 ∉ es.map (·.1) := by
      rw [List.map_cons, List.nodup_cons] at hnd
      exact hnd.1
    rcases List.mem_cons.mp h with h1 | h1
    · rw [← h1]
      simp [alistLookup]
    · have hk : k ∈ es.map (·.1) := List.mem_map.mpr ⟨(k, v), h1, rfl⟩
      have hne : ¬(e.1 == k) := by
        intro hb
        have hEq : e.1 = k := by simpa using hb
        exact hhead (by rw [hEq]; exact hk)
      simp [alistLookup, hne, ih hnd2 h1]

/-! ## Filtering and sorting lemmas -/

theorem filter_filter_and {α : Type} (p q : α → Bool) (l : List α) :
    (l.filter p).filter q = l.filter fun x => p x && q x := by
  induction l with
  | nil => rfl
  | cons a as ih =>
    by_cases hp : p a
    · by_cases hq : q a <;> simp [List.filter_cons, hp, hq, ih]
    · simp [List.filter_cons, hp, ih]

theorem mem_insertByTime (r x : Row) (l : List Row) :
    x ∈ insertByTime r l ↔ x = r ∨ x ∈ l := by
  induction l with
  | nil => simp [insertByTime]
  | cons a as ih =>
    by_cases h : a.time < r.time
    · simp only [insertByTime, h, if_true, List.mem_cons, ih]
      tauto
    · simp only [insertByTime, h, if_false, List.mem_cons]

theorem pairwise_insertByTime (r : Row) (l : List Row)
    (h : l.Pairwise fun a b => a.time ≤ b.time) :
    (insertByTime r l).Pairwise fun a b => a.time ≤ b.time := by
  induction l with
  | nil => simp [insertByTime]
  | cons a as ih =>
    rw [List.pairwise_cons] at h
    by_cases hc : a.time < r.time
    · rw [insertByTime]
      simp only [hc, if_true]
      rw [List.pairwise_cons]
      refine ⟨?_, ih h.2⟩
      intro y hy
      rcases (mem_insertByTime r y as).mp hy with hy | hy
      · rw [hy]
        exact le_of_lt hc
      · exact h.1 y hy
    · rw [insertByTime]
      simp only [hc, if_false]
      rw [List.pairwise_cons]
      refine ⟨?_, List.pairwise_cons.mpr h⟩
      intro y hy
      rcases List.mem_cons.mp hy with hy | hy
      · rw [hy]
        exact le_of_not_lt hc
      · exact le_trans (le_of_not_lt hc) (h.1 y hy)

theorem pairwise_sortByTime (l : List Row) :
    (sortByTime l).Pairwise fun a b => a.time ≤ b.time := by
  induction l with
  | nil => simp [sortByTime]
  | cons a as ih => exact pairwise_insertByTime a (sortByTime as) ih

theorem insertByTime_of_forall_le (r : Row) (l : List Row)
    (h : ∀ x ∈ l, r.time ≤ x.time) : insertByTime r l = r :: l := by
  cases l with
  | nil => rfl
  | cons a as =>
    have : ¬(a.time < r.time) := not_lt.mpr (h a (by simp))
    simp [insertByTime, this]

theorem filter_insertByTime (p : Row → Bool) (r : Row) (l : List Row)
    (hs : l.Pairwise fun a b => a.time ≤ b.time) :
    (insertByTime r l).filter p =
      if p r then insertByTime r (l.filter p) else l.filter p := by
  induction l with
  | nil => by_cases hp : p r <;> simp [insertByTime, hp]
  | cons a as ih =>
    rw [List.pairwise_cons] at hs
    by_cases hc : a.time < r.time
    · rw [insertByTime]
      simp only [hc, if_true]
      by_cases hp : p r
      · by_cases hpa : p a
        · simp only [List.filter_cons, hpa, if_true, hp, ih hs.2]
          rw [insertByTime]
          simp [hc, hp]
        · simp only [List.filter_cons, hpa, if_false, hp, ih hs.2]
          simp [hp]
      · by_cases hpa : p a <;>
          simp [List.filter_cons, hpa, hp, ih hs.2]
    · rw [insertByTime]
      simp only [hc, if_false]
      have hr : ∀ x ∈ a :: as, r.time ≤ x.time := by
        intro x hx
        rcases List.mem_cons.mp hx with hx | hx
        · rw [hx]
          exact le_of_not_lt hc
        · exact le_trans (le_of_not_lt hc) (hs.1 x hx)
      by_cases hp : p r
      · rw [List.filter_cons]
        simp only [hp, if_true]
        rw [insertByTime_of_forall_le r ((a :: as).filter p)
          (fun x hx => hr x (List.mem_of_mem_filter hx))]
      · simp [List.filter_cons, hp]

theorem filter_sortByTime (p : Row → Bool) (l : List Row) :
    (sortByTime l).filter p = sortByTime (l.filter p) := by
  induction l with
  | nil => rfl
  | cons a as ih =>
    rw [sortByTime, filter_insertByTime p a (sortByTime as) (pairwise_sortByTime as)]
    by_cases hp : p a
    · simp [List.filter_cons, hp, sortByTime, ih]
    · simp [List.filter_cons, hp, ih]

theorem mem_insertGroup (e x : Int × Point) (l : List (Int × Point)) :
    x ∈ insertGroup e l ↔ x = e ∨ x ∈ l := by
  induction l with
  | nil => simp [insertGroup]
  | cons a as ih =>
    by_cases h : a.1 < e.1
    · simp only [insertGroup, h, if_true, List.mem_cons, ih]
      tauto
    · simp only [insertGroup, h, if_false, List.mem_cons]

theorem mem_sortGroups (x : Int × Point) (l : List (Int × Point)) :
    x ∈ sortGroups l ↔ x ∈ l := by
  induction l with
  | nil => simp [sortGroups]
  | cons a as ih =>
    rw [sortGroups, mem_insertGroup, ih, List.mem_cons]

/-! ## Grouping-loop lemmas -/

theorem metricValue_addRow (W : Int) (gs : List (Int × Point)) (r : Row)
    (B : Int) (k : String) :
    metricValue (addRow W gs r) B k =
      if bucketKeyOf W r.time = B ∧ r.k = k then
        match r.v with
        | some x => some x
        | none => metricValue gs B k
      else metricValue gs B k := by
  by_cases hB : bucketKeyOf W r.time = B
  · subst hB
    by_cases hk : r.k = k
    · subst hk
      rw [if_pos ⟨rfl, rfl⟩]
      cases hv : r.v with
      | some x =>
        simp [addRow, metricValue, hv, alistLookup_alistSet_self]
      | none =>
        simp only [addRow, metricValue, hv, alistLookup_alistSet_self]
        cases hg : alistLookup gs (bucketKeyOf W r.time) <;> simp [hg, alistLookup]
    · rw [if_neg (fun hc => hk hc.2)]
      cases hv : r.v with
      | some x =>
        simp only [addRow, metricValue, hv, alistLookup_alistSet_self,
          alistLookup_alistSet_ne _ _ _ _ (fun h2 => hk h2.symm)]
        cases hg : alistLookup gs (bucketKeyOf W r.time) <;> simp [hg, alistLookup]
      | none =>
        simp only [addRow, metricValue, hv, alistLookup_alistSet_self]
        cases hg : alistLookup gs (bucketKeyOf W r.time) <;> simp [hg, alistLookup]
  · rw [if_neg (fun hc => hB hc.1)]
    simp only [addRow, metricValue,
      alistLookup_alistSet_ne _ _ _ _ (fun h2 => hB h2.symm)]

theorem metricValue_foldl (W B : Int) (k : String) (rows : List Row) :
    ∀ gs, metricValue (rows.foldl (addRow W) gs) B k =
      lastSeen (metricValue gs B k) (rows.filter (bucketPred W B k)) := by
  induction rows with
  | nil => intro gs; simp [lastSeen]
  | cons r rs ih =>
    intro gs
    rw [List.foldl_cons, ih (addRow W gs r), metricValue_addRow]
    by_cases h : bucketKeyOf W r.time = B ∧ r.k = k
    · have hb : bucketPred W B k r = true := by
        simp [bucketPred, h.1, h.2]
      rw [if_pos h, List.filter_cons, if_pos hb]
      cases hv : r.v with
      | some x => simp [lastSeen, hv]
      | none => simp [lastSeen, hv]
    · have hb : ¬(bucketPred W B k r = true) := by
        simp only [bucketPred, Bool.and_eq_true, beq_iff_eq]
        intro hc
        exact h ⟨hc.1, hc.2⟩
      rw [if_neg h, List.filter_cons, if_neg hb]

theorem metricValue_buildGroups (W B : Int) (k : String) (rows : List Row) :
    metricValue (buildGroups W rows) B k =
      lastSeen none (rows.filter (bucketPred W B k)) := by
  rw [buildGroups, metricValue_foldl]
  rfl

/-- The invariant of the grouping state: every entry's point carries its own
bucket key as `ts`, and the bucket keys are pairwise distinct (`Map` keys). -/
def GroupsInv (gs : List (Int × Point)) : Prop :=
  (∀ e ∈ gs, (e.2).ts = e.1) ∧ (gs.map (·.1)).Nodup

theorem groupsInv_addRow (W : Int) (gs : List (Int × Point)) (r : Row)
    (h : GroupsInv gs) : GroupsInv (addRow W gs r) := by
  simp only [addRow]
  have hg : ((alistLookup gs (bucketKeyOf W r.time)).getD
      ⟨bucketKeyOf W r.time, []⟩).ts = bucketKeyOf W r.time := by
    cases hl : alistLookup gs (bucketKeyOf W r.time) with
    | none => rfl
    | some p =>
      have := h.1 _ (alistLookup_mem gs _ p hl)
      simpa using this
  constructor
  · intro e he
    rcases mem_alistSet _ _ _ _ he with h2 | h2
    · rw [h2]
      cases hv : r.v <;> simp [hv, hg]
    · exact h.1 e h2
  · exact nodup_keys_alistSet _ _ _ h.2

theorem groupsInv_buildGroups (W : Int) (rows : List Row) :
    GroupsInv (buildGroups W rows) := by
  rw [buildGroups]
  have : ∀ gs, GroupsInv gs → GroupsInv (rows.foldl (addRow W) gs) := by
    induction rows with
    | nil => intro gs h; exact h
    | cons r rs ih =>
      intro gs h
      rw [List.foldl_cons]
      exact ih _ (groupsInv_addRow W gs r h)
  exact this [] ⟨by simp, by simp⟩

/-! ## Claim theorems -/

/-- C1: Last-write-wins within a bucket. For every station and every bucketed
history query, if the persisted samples that the query's row predicate and the
bucket/key restriction select are exactly two samples for the same key in the
same bucket — in either store order — with `s1.time < s2.time` and different
non-null values, then the query succeeds, bucket `B` appears in the output,
and every output point for bucket `B` reports the value of the later sample
`s2` for that key. -/
theorem lww_within_bucket
    (store : List Row) (sidRaw : String) (mq bq now : Int)
    (k : String) (B W fromT : Int) (sid : String) (s1 s2 : Row) (v1 v2 : Int)
    (hsid0 : sid = jsTrim sidRaw)
    (hsid : ¬jsTrim sidRaw = "")
    (hW : W = clampBucketSec bq * 1000)
    (hFrom : fromT = now - clampMinutes mq * 60000)
    (hk1 : s1.k = k) (hk2 : s2.k = k)
    (hv1 : s1.v = some v1) (hv2 : s2.v = some v2)
    (ht : s1.time < s2.time) (hne : v1 ≠ v2)
    (hfilter :
      store.filter (fun r => rangePred sid fromT r && bucketPred W B k r) =
          [s1, s2] ∨
        store.filter (fun r => rangePred sid fromT r && bucketPred W B k r) =
          [s2, s1]) :
    ∃ resp, getTelemetry store sidRaw mq bq now = Except.ok resp ∧
      (∃ p ∈ resp.points, p.ts = B) ∧
      (∀ p ∈ resp.points, p.ts = B → alistLookup p.metrics k = some v2) := by
  subst hsid0
  subst hW
  subst hFrom
  have hresp : getTelemetry store sidRaw mq bq now =
      Except.ok
        ⟨jsTrim sidRaw, now - clampMinutes mq * 60000, now, clampBucketSec bq,
          bucketPoints
            (queryRows store (jsTrim sidRaw) (now - clampMinutes mq * 60000))
            (clampBucketSec bq * 1000)⟩ := by
    simp only [getTelemetry]
    rw [if_neg hsid]
  have hq : (queryRows store (jsTrim sidRaw) (now - clampMinutes mq * 60000)).filter
      (bucketPred (clampBucketSec bq * 1000) B k) = [s1, s2] := by
    rw [queryRows, filter_sortByTime, filter_filter_and]
    have h21 : ¬(s2.time < s1.time) := not_lt.mpr (le_of_lt ht)
    rcases hfilter with hf | hf
    · rw [hf]
      simp [sortByTime, insertByTime, h21]
    · rw [hf]
      simp [sortByTime, insertByTime, ht]
  have hgroups : metricValue
      (buildGroups (clampBucketSec bq * 1000)
        (queryRows store (jsTrim sidRaw) (now - clampMinutes mq * 60000)))
      B k = some v2 := by
    rw [metricValue_buildGroups, hq]
    simp [lastSeen, hv1, hv2]
  have hinv := groupsInv_buildGroups (clampBucketSec bq * 1000)
    (queryRows store (jsTrim sidRaw) (now - clampMinutes mq * 60000))
  refine ⟨_, hresp, ?_, ?_⟩
  · -- bucket B appears among the output points
    cases hl : alistLookup
        (buildGroups (clampBucketSec bq * 1000)
          (queryRows store (jsTrim sidRaw) (now - clampMinutes mq * 60000))) B with
    | none => rw [metricValue, hl] at hgroups; exact absurd hgroups (by simp)
    | some p =>
      have hmem := alistLookup_mem _ _ _ hl
      have hts : p.ts = B := by simpa using hinv.1 _ hmem
      refine ⟨p, ?_, hts⟩
      simp only [bucketPoints]
      exact List.mem_map.mpr ⟨(B, p), (mem_sortGroups _ _).mpr hmem, rfl⟩
  · -- every output point for bucket B reports v2 for key k
    intro p hp hts
    simp only [bucketPoints] at hp
    rcases List.mem_map.mp hp with ⟨e, he, hpe⟩
    have hegs := (mem_sortGroups _ _).mp he
    have hets : e.2.ts = e.1 := hinv.1 e hegs
    have he1 : e.1 = B := by rw [← hets, hpe, hts]
    have hmem2 : (B, p) ∈ buildGroups (clampBucketSec bq * 1000)
        (queryRows store (jsTrim sidRaw) (now - clampMinutes mq * 60000)) := by
      have : e = (B, p) := by
        cases e
        simp_all
      rw [← this]
      exact hegs
    have hl2 := alistLookup_of_mem_nodup _ _ _ hinv.2 hmem2
    rw [metricValue, hl2] at hgroups
    exact hgroups

theorem pushRow_nan (st : String) (dv : Option String) (now : Int)
    (rows : List Row) (k : Option String) (v : JVal) (t : Option Int)
    (h : coerceValue v = none) :
    pushRow st dv now rows k v t = rows := by
  cases k with
  | none => rfl
  | some key => simp [pushRow, h]

/-- C2: a candidate observation whose value coerces to NaN is silently
dropped — removing it from the events list leaves the whole ingestion outcome
(status, store, broadcasts) unchanged, so it neither fails the request nor
counts toward the persisted total — and when every observation is dropped
(the built row list is empty) the call is rejected as a validation error with
zero side effects: the store is unchanged and nothing is broadcast. -/
theorem ingest_nan_dropped_and_empty_rejected
    (store : List Row) (b : Body) (now : Int) (storeOk : Bool) :
    (∀ es1 es2 e, b.shape = Shape.events (es1 ++ e :: es2) →
      coerceValue e.v = none →
      postTelemetry store b now storeOk =
        postTelemetry store { b with shape := Shape.events (es1 ++ es2) }
          now storeOk) ∧
    (buildRows b (normStationId b) (normDeviceId b.deviceId) now = [] →
      (postTelemetry store b now storeOk).store = store ∧
      (postTelemetry store b now storeOk).broadcasts = [] ∧
      ∃ msg, (postTelemetry store b now storeOk).status =
        IngestStatus.badRequest msg) := by
  constructor
  · intro es1 es2 e hsh hnan
    have key : ∀ s d, buildRows b s d now =
        buildRows { b with shape := Shape.events (es1 ++ es2) } s d now := by
      intro s d
      simp only [buildRows, hsh]
      rw [List.foldl_append, List.foldl_append, List.foldl_cons,
        pushRow_nan s d now _ e.k e.v e.time hnan]
    have hsid2 : normStationId { b with shape := Shape.events (es1 ++ es2) } =
        normStationId b := rfl
    simp only [postTelemetry, key, hsid2]
  · intro hempty
    by_cases hs : normStationId b = ""
    · exact ⟨by simp [postTelemetry, hs], by simp [postTelemetry, hs],
        "stationId required", by simp [postTelemetry, hs]⟩
    · exact ⟨by simp [postTelemetry, hs, hempty],
        by simp [postTelemetry, hs, hempty],
        "no metrics", by simp [postTelemetry, hs, hempty]⟩

/-- C3: an ingestion call whose `stationId` is missing or empty after trimming
is rejected with a 400 before any write: the store is unchanged and no
snapshot is broadcast. -/
theorem ingest_rejects_missing_station (store : List Row) (b : Body)
    (now : Int) (storeOk : Bool) (h : normStationId b = "") :
    postTelemetry store b now storeOk =
      ⟨IngestStatus.badRequest "stationId required", store, []⟩ := by
  simp [postTelemetry, h]

/-- C4: bucket alignment. For bucket width `W` seconds (`bucketMs = W * 1000`)
and two sample times `t1 < t2` (in epoch milliseconds), the grouping key the
query computes (`Math.floor(time / bucketMs) * bucketMs`) coincides for the
two samples iff `floor(t1 / W) = floor(t2 / W)` taken over a common unit:
`Int.fdiv t (W * 1000)` of the millisecond times is exactly the floor of the
real quotient (time in seconds) / W. -/
theorem bucket_alignment (W t1 t2 : Int) (hW : 1 ≤ W) (ht : t1 < t2) :
    bucketKeyOf (W * 1000) t1 = bucketKeyOf (W * 1000) t2 ↔
      Int.fdiv t1 (W * 1000) = Int.fdiv t2 (W * 1000) := by
  unfold bucketKeyOf
  constructor
  · intro h
    have hz : (W * 1000 : Int) ≠ 0 := by omega
    exact mul_right_cancel₀ hz h
  · intro h
    rw [h]

/-- C5: for every bucketed history request with a nonempty station id and any
numeric `minutes` and `bucket` inputs, the query is never rejected — it
returns a bucketed series — and the lookback is clamped into 1..1440 minutes,
the bucket width into 1..3600 seconds, with the clamped values actually used
(`from = now - clampedMinutes * 60000`, response `bucket` = clamped width). -/
theorem history_clamps_never_rejects (store : List Row) (sidRaw : String)
    (mq bq now : Int) (h : ¬jsTrim sidRaw = "") :
    ∃ resp, getTelemetry store sidRaw mq bq now = Except.ok resp ∧
      resp.fromTime = now - clampMinutes mq * 60000 ∧
      resp.bucket = clampBucketSec bq ∧
      1 ≤ clampMinutes mq ∧ clampMinutes mq ≤ 1440 ∧
      1 ≤ clampBucketSec bq ∧ clampBucketSec bq ≤ 3600 := by
  refine ⟨⟨jsTrim sidRaw, now - clampMinutes mq * 60000, now, clampBucketSec bq,
    bucketPoints (queryRows store (jsTrim sidRaw) (now - clampMinutes mq * 60000))
      (clampBucketSec bq * 1000)⟩, ?_, rfl, rfl, ?_, ?_, ?_, ?_⟩
  · simp only [getTelemetry]
    rw [if_neg h]
  · exact le_max_left _ _
  · exact max_le (by norm_num) (min_le_left _ _)
  · exact le_max_left _ _
  · exact max_le (by norm_num) (min_le_left _ _)

/-- C6: publish isolates subscriber failures. With subscribers `A` and `B`
registered for the same station and writing to `A` failing (`A.broken`),
`B` still receives the broadcast event; `sseBroadcast` is a total function,
so the per-channel failure is swallowed and never raised to the caller. -/
theorem broadcast_isolates_failures (chs : ChannelMap) (sid : String)
    (A B : Channel) (subs : List Channel)
    (h : alistLookup chs sid = some subs) (hA : A ∈ subs) (hB : B ∈ subs)
    (hAb : A.broken = true) (hBok : B.broken = false) :
    B.id ∈ sseBroadcast chs sid := by
  simp only [sseBroadcast, h]
  exact List.mem_map.mpr ⟨B, List.mem_filter.mpr ⟨hB, by simp [hBok]⟩, rfl⟩

theorem alistLookup_filter_out (chs : ChannelMap) (sid : String) :
    alistLookup (chs.filter fun e => !(e.1 == sid)) sid = none := by
  induction chs with
  | nil => rfl
  | cons e es ih =>
    by_cases h : e.1 == sid
    · simp [List.filter_cons, h, ih]
    · simp [List.filter_cons, h, alistLookup, ih]

/-- C7: unsubscribe on close shrinks state. Closing a channel removes it from
its station's subscriber set (any set still registered for the station no
longer contains it), and when the closed channel was the station's last
subscriber the station's registry entry itself is gone, so a subsequent
publish for that station is a no-op lookup delivering to nobody. -/
theorem close_unsubscribes (chs : ChannelMap) (sid : String) (c : Channel) :
    (∀ subs, alistLookup (closeChannel chs sid c) sid = some subs → c ∉ subs) ∧
    (alistLookup chs sid = some [c] →
      alistLookup (closeChannel chs sid c) sid = none ∧
      sseBroadcast (closeChannel chs sid c) sid = []) := by
  constructor
  · intro subs hsubs hc
    cases hl : alistLookup chs sid with
    | none => simp [closeChannel, hl] at hsubs
    | some s0 =>
      simp only [closeChannel, hl] at hsubs
      by_cases hemp : s0.filter (fun x => x ≠ c) = []
      · rw [if_pos hemp, alistLookup_filter_out] at hsubs
        cases hsubs
      · rw [if_neg hemp, alistLookup_alistSet_self] at hsubs
        injection hsubs with hsubs
        rw [← hsubs] at hc
        have := (List.mem_filter.mp hc).2
        simp at this
  · intro hl
    have hemp : (([c] : List Channel).filter fun x => x ≠ c) = [] := by simp
    have h2 : alistLookup (closeChannel chs sid c) sid = none := by
      simp only [closeChannel, hl]
      rw [if_pos hemp]
      exact alistLookup_filter_out chs sid
    exact ⟨h2, by simp [sseBroadcast, h2]⟩

/-- C8: publish-after-persist. If the store write fails (`storeOk = false`),
no snapshot is broadcast for that ingestion call (and nothing is persisted);
and whenever a snapshot is broadcast, the persisted batch the snapshot was
built from has already been appended to the store — a subscriber never
observes a snapshot for data that was not persisted. -/
theorem publish_after_persist (store : List Row) (b : Body) (now : Int)
    (storeOk : Bool) :
    (storeOk = false →
      (postTelemetry store b now storeOk).broadcasts = [] ∧
      (postTelemetry store b now storeOk).store = store) ∧
    ((postTelemetry store b now storeOk).broadcasts ≠ [] →
      ∃ rows, rows ≠ [] ∧
        (postTelemetry store b now storeOk).store = store ++ rows ∧
        (postTelemetry store b now storeOk).broadcasts =
          [⟨normStationId b, buildSnapshot rows⟩]) := by
  constructor
  · rintro rfl
    by_cases hs : normStationId b = ""
    · simp [postTelemetry, hs]
    · by_cases hr : buildRows b (normStationId b) (normDeviceId b.deviceId) now = []
      · simp [postTelemetry, hs, hr]
      · simp [postTelemetry, hs, hr]
  · intro hne
    by_cases hs : normStationId b = ""
    · simp [postTelemetry, hs] at hne
    · by_cases hr : buildRows b (normStationId b) (normDeviceId b.deviceId) now = []
      · simp [postTelemetry, hs, hr] at hne
      · cases hok : storeOk with
        | false => simp [postTelemetry, hs, hr, hok] at hne
        | true =>
          refine ⟨buildRows b (normStationId b) (normDeviceId b.deviceId) now,
            hr, ?_, ?_⟩ <;> simp [postTelemetry, hs, hr]

/-- C9: idempotence of read. The bucketed history query is a pure function of
the store contents and the request parameters (station id, minutes, bucket,
and the query time), so two calls with identical parameters against unchanged
store contents return identical output. -/
theorem read_idempotent (store store2 : List Row) (sid sid2 : String)
    (m m2 bq bq2 now now2 : Int)
    (h1 : store = store2) (h2 : sid = sid2) (h3 : m = m2) (h4 : bq = bq2)
    (h5 : now = now2) :
    getTelemetry store sid m bq now = getTelemetry store2 sid2 m2 bq2 now2 := by
  subst h1
  subst h2
  subst h3
  subst h4
  subst h5
  rfl

/-- C10 (implicit): an observation whose value is absent or null — in the
events-list or the single-pair shape — is accepted, persisted as a row with a
null value, and counted in the reported inserted total (here `created 1` with
zero numeric-valued rows persisted), so the reported count can exceed the
number of observations carrying a numeric value. -/
theorem null_value_counted (store : List Row) (sid k : String) (t : Option Int)
    (now : Int) (v : JVal) (hsid : ¬jsTrim sid = "")
    (hv : v = JVal.null ∨ v = JVal.undef) :
    postTelemetry store ⟨some sid, none, none, Shape.events [⟨some k, v, t⟩]⟩
        now true =
      ⟨IngestStatus.created 1, store ++ [⟨k, none, t.getD now, jsTrim sid, none⟩],
        [⟨jsTrim sid, []⟩]⟩ ∧
    postTelemetry store ⟨some sid, none, t, Shape.single (some k) v⟩ now true =
      ⟨IngestStatus.created 1, store ++ [⟨k, none, t.getD now, jsTrim sid, none⟩],
        [⟨jsTrim sid, []⟩]⟩ := by
  rcases hv with rfl | rfl <;>
    exact ⟨by simp [postTelemetry, normStationId, normDeviceId, buildRows,
        pushRow, coerceValue, buildSnapshot, hsid],
      by simp [postTelemetry, normStationId, normDeviceId, buildRows,
        pushRow, coerceValue, buildSnapshot, hsid]⟩

/-! ## Witnesses: the claim theorems applied at concrete inputs -/

/-- Witness for C1: two `pass` samples at 1000ms and 2000ms in the 60s bucket
starting at 0; the later value 9 is reported. -/
theorem lww_within_bucket_witness :
    ∃ resp,
      getTelemetry
          [⟨"pass", some 5, 1000, "S1", none⟩, ⟨"pass", some 9, 2000, "S1", none⟩]
          "S1" 60 60 3600000 = Except.ok resp ∧
      (∃ p ∈ resp.points, p.ts = 0) ∧
      (∀ p ∈ resp.points, p.ts = 0 → alistLookup p.metrics "pass" = some 9) :=
  lww_within_bucket
    [⟨"pass", some 5, 1000, "S1", none⟩, ⟨"pass", some 9, 2000, "S1", none⟩]
    "S1" 60 60 3600000 "pass" 0 60000 0 "S1"
    ⟨"pass", some 5, 1000, "S1", none⟩ ⟨"pass", some 9, 2000, "S1", none⟩ 5 9
    (by decide) (by decide) (by decide) (by decide) rfl rfl rfl rfl
    (by decide) (by decide) (Or.inl (by decide))

/-- Witness for C2: a NaN-valued event is dropped with no change to the
outcome, and a call whose only event is NaN-valued is rejected with zero side
effects. -/
theorem ingest_nan_witness :
    (postTelemetry []
        ⟨some "S1", none, none, Shape.events [⟨some "x", JVal.nanNum, none⟩]⟩
        0 true =
      postTelemetry [] ⟨some "S1", none, none, Shape.events []⟩ 0 true) ∧
    ((postTelemetry []
        ⟨some "S1", none, none, Shape.events [⟨some "x", JVal.nanNum, none⟩]⟩
        0 true).store = [] ∧
      (postTelemetry []
        ⟨some "S1", none, none, Shape.events [⟨some "x", JVal.nanNum, none⟩]⟩
        0 true).broadcasts = [] ∧
      ∃ msg, (postTelemetry []
        ⟨some "S1", none, none, Shape.events [⟨some "x", JVal.nanNum, none⟩]⟩
        0 true).status = IngestStatus.badRequest msg) :=
  ⟨(ingest_nan_dropped_and_empty_rejected []
      ⟨some "S1", none, none, Shape.events [⟨some "x", JVal.nanNum, none⟩]⟩
      0 true).1 [] [] ⟨some "x", JVal.nanNum, none⟩ rfl rfl,
   (ingest_nan_dropped_and_empty_rejected []
      ⟨some "S1", none, none, Shape.events [⟨some "x", JVal.nanNum, none⟩]⟩
      0 true).2 (by decide)⟩

/-- Witness for C3: an ingestion call with `stationId` omitted is rejected
and persists nothing. -/
theorem ingest_rejects_missing_station_witness :
    postTelemetry [⟨"pass", some 1, 0, "S1", none⟩]
        ⟨none, none, none, Shape.flat [("pass", JVal.num 5)]⟩ 0 true =
      ⟨IngestStatus.badRequest "stationId required",
        [⟨"pass", some 1, 0, "S1", none⟩], []⟩ :=
  ingest_rejects_missing_station [⟨"pass", some 1, 0, "S1", none⟩]
    ⟨none, none, none, Shape.flat [("pass", JVal.num 5)]⟩ 0 true (by decide)

/-- Witness for C4 at `W = 60`, `t1 = 1000`, `t2 = 59000`. -/
theorem bucket_alignment_witness :
    (1 : Int) ≤ 60 ∧ (1000 : Int) < 59000 ∧
    (bucketKeyOf (60 * 1000) 1000 = bucketKeyOf (60 * 1000) 59000 ↔
      Int.fdiv 1000 (60 * 1000) = Int.fdiv 59000 (60 * 1000)) :=
  ⟨by decide, by decide, bucket_alignment 60 1000 59000 (by decide) (by decide)⟩

/-- Witness for C5: out-of-range inputs (5000 minutes, bucket -3) are clamped
and the query still succeeds. -/
theorem history_clamps_witness :
    ∃ resp, getTelemetry [] "S1" 5000 (-3) 0 = Except.ok resp ∧
      resp.fromTime = 0 - clampMinutes 5000 * 60000 ∧
      resp.bucket = clampBucketSec (-3) ∧
      1 ≤ clampMinutes 5000 ∧ clampMinutes 5000 ≤ 1440 ∧
      1 ≤ clampBucketSec (-3) ∧ clampBucketSec (-3) ≤ 3600 :=
  history_clamps_never_rejects [] "S1" 5000 (-3) 0 (by decide)

/-- Witness for C6: with a broken channel 1 and a healthy channel 2 on the
same station, channel 2 still receives the broadcast. -/
theorem broadcast_isolates_witness :
    (2 : Nat) ∈ sseBroadcast [("S1", [⟨1, true⟩, ⟨2, false⟩])] "S1" :=
  broadcast_isolates_failures [("S1", [⟨1, true⟩, ⟨2, false⟩])] "S1"
    ⟨1, true⟩ ⟨2, false⟩ [⟨1, true⟩, ⟨2, false⟩]
    (by decide) (by decide) (by decide) rfl rfl

/-- Witness for C7: closing channel 1 removes it from the set it shared with
channel 2, and closing a station's last channel removes the station entry and
makes a subsequent publish a no-op. -/
theorem close_unsubscribes_witness :
    ((⟨1, false⟩ : Channel) ∉ ([⟨2, false⟩] : List Channel)) ∧
    (alistLookup (closeChannel [("S1", [⟨1, false⟩])] "S1" ⟨1, false⟩) "S1" =
        none ∧
      sseBroadcast (closeChannel [("S1", [⟨1, false⟩])] "S1" ⟨1, false⟩) "S1" =
        []) :=
  ⟨(close_unsubscribes [("S1", [⟨1, false⟩, ⟨2, false⟩])] "S1" ⟨1, false⟩).1
      [⟨2, false⟩] (by decide),
   (close_unsubscribes [("S1", [⟨1, false⟩])] "S1" ⟨1, false⟩).2 (by decide)⟩

/-- Witness for C8: with the store write failing nothing is broadcast or
persisted; with it succeeding, the broadcast snapshot corresponds to the
freshly appended batch. -/
theorem publish_after_persist_witness :
    ((postTelemetry [] ⟨some "S1", none, none, Shape.flat [("pass", JVal.num 5)]⟩
        0 false).broadcasts = [] ∧
      (postTelemetry [] ⟨some "S1", none, none, Shape.flat [("pass", JVal.num 5)]⟩
        0 false).store = []) ∧
    (∃ rows, rows ≠ [] ∧
      (postTelemetry [] ⟨some "S1", none, none, Shape.flat [("pass", JVal.num 5)]⟩
        0 true).store = [] ++ rows ∧
      (postTelemetry [] ⟨some "S1", none, none, Shape.flat [("pass", JVal.num 5)]⟩
        0 true).broadcasts =
        [⟨normStationId ⟨some "S1", none, none, Shape.flat [("pass", JVal.num 5)]⟩,
          buildSnapshot rows⟩]) :=
  ⟨(publish_after_persist []
      ⟨some "S1", none, none, Shape.flat [("pass", JVal.num 5)]⟩ 0 false).1 rfl,
   (publish_after_persist []
      ⟨some "S1", none, none, Shape.flat [("pass", JVal.num 5)]⟩ 0 true).2
      (by decide)⟩

/-- Witness for C9: the same query twice on identical inputs. -/
theorem read_idempotent_witness :
    getTelemetry [⟨"pass", some 5, 1000, "S1", none⟩] "S1" 60 60 3600000 =
      getTelemetry [⟨"pass", some 5, 1000, "S1", none⟩] "S1" 60 60 3600000 :=
  read_idempotent [⟨"pass", some 5, 1000, "S1", none⟩]
    [⟨"pass", some 5, 1000, "S1", none⟩] "S1" "S1" 60 60 60 60 3600000 3600000
    rfl rfl rfl rfl rfl

/-- Witness for C10: a single null-valued `pass` observation is persisted and
reported as 1 inserted row, in both accepted shapes. -/
theorem null_value_counted_witness :
    postTelemetry [] ⟨some "S1", none, none,
        Shape.events [⟨some "pass", JVal.null, none⟩]⟩ 7 true =
      ⟨IngestStatus.created 1, [] ++ [⟨"pass", none, 7, "S1", none⟩],
        [⟨"S1", []⟩]⟩ ∧
    postTelemetry [] ⟨some "S1", none, none, Shape.single (some "pass") JVal.null⟩
        7 true =
      ⟨IngestStatus.created 1, [] ++ [⟨"pass", none, 7, "S1", none⟩],
        [⟨"S1", []⟩]⟩ :=
  null_value_counted [] "S1" "pass" none 7 JVal.null (by decide) (Or.inl rfl)

end IndustrialApi
